import Mathlib

/-!
Verification of the invoice/payment reconciliation core of the royal-fees
school fee management application.

The embedding translates `src/lib/paymentService.ts` and the error/validation
helpers of `src/types/index.ts` into Lean.  JavaScript numbers are modelled as
exact rationals (`Rat`); the persistent store (Supabase tables `invoices` and
`payments`) is modelled as in-memory lists, with point lookup (`.eq('id',…).single()`)
as `List.find?` on the id, filtered aggregate queries as `List.filter`/sum, and
row updates as an id-guarded map.  A `.single()` lookup that matches no row is
modelled as returning no data (so the code's explicit
`if (!invoice) throw new InvoiceError(...)` / `if (!payment) throw …` guards
fire, as the code intends); infrastructure-level read errors are not modelled,
while write failures of the two UPDATE statements inside `confirmPayment` are
modelled explicitly through `WriteFaults`, since the failure semantics of the
two separate writes is one of the specified properties.
-/

namespace RoyalFees

/-- Type `PaymentStatus` from `src/types/database.ts`:
`'pending' | 'confirmed' | 'failed' | 'reversed'`. -/
inductive PaymentStatus where
  | pending
  | confirmed
  | failed
  | reversed
deriving DecidableEq, Repr

/-- Type `InvoiceStatus` from `src/types/database.ts`:
`'pending' | 'partial' | 'paid' | 'overdue' | 'cancelled'`.
The `'partial'` literal is rendered `partialStatus` (a Lean keyword clash). -/
inductive InvoiceStatus where
  | pending
  | partialStatus
  | paid
  | overdue
  | cancelled
deriving DecidableEq, Repr

/-- The columns of an `invoices` row used by the payment core.
`balance` is a database-computed column (`total_amount - paid_amount`);
from the reading code's point of view it is just a stored field. -/
structure Invoice where
  id : String
  total_amount : Rat
  paid_amount : Rat
  balance : Rat
  status : InvoiceStatus
deriving DecidableEq, Repr

/-- The columns of a `payments` row used by the payment core.
`transaction_reference` is `string | null` in the database, modelled as
`Option String`; likewise `confirmed_by`. -/
structure Payment where
  id : String
  invoice_id : String
  amount : Rat
  status : PaymentStatus
  transaction_reference : Option String
  confirmed_by : Option String
deriving DecidableEq, Repr

/-- The persistent store: the two tables the payment core touches. -/
structure DB where
  invoices : List Invoice
  payments : List Payment
deriving Repr

/-- The error taxonomy of `src/types/index.ts`: `InvoiceError`, `PaymentError`,
`ValidationError` (with its machine-readable `field`), plus `storeError` for a
failed write surfaced by the store client. -/
inductive Err where
  | invoiceError (message : String)
  | paymentError (message : String)
  | validationError (message : String) (field : String)
  | storeError
deriving DecidableEq, Repr

/-- JavaScript truthiness of a `string | null` value: `null` and the empty
string are falsy, every other string (including whitespace-only) is truthy.
Used for `p.transaction_reference` in `validateInvoicePayments` and for the
`!bankName` / `!transactionRef` guards in `validateBankDetails`. -/
def truthyStr : Option String → Bool
  | none => false
  | some s => s ≠ ""

/-- Function `formatCurrency` from `src/lib/utils.ts`.  The source delegates
to the platform NGN currency formatter `Intl.NumberFormat`; the exact digit
grouping is platform-provided and irrelevant to the verified properties, so
the amount is rendered as a plain numeral. -/
def formatCurrency (amount : Rat) : String :=
  toString amount

/-- Function `calculateInvoiceStatus` from `src/lib/paymentService.ts` (lines 58–62). -/
def calculateInvoiceStatus (totalAmount paidAmount : Rat) : InvoiceStatus :=
  if paidAmount ≤ 0 then .pending
  else if paidAmount ≥ totalAmount then .paid
  else .partialStatus

/-- Function `validatePaymentAmount` from `src/types/index.ts` (lines 642–661),
with `throw` rendered as `Except.error`.  The three `if` checks are translated
literally, including the third (`existing + amount > balance + existing`). -/
def validatePaymentAmount (amount invoiceBalance : Rat)
    (existingPayments : Rat := 0) : Except Err Unit :=
  if amount ≤ 0 then
    .error (.validationError "Payment amount must be greater than zero" "amount")
  else if amount > invoiceBalance then
    .error (.validationError
      ("Payment amount (" ++ toString amount ++ ") cannot exceed invoice balance ("
        ++ toString invoiceBalance ++ ")") "amount")
  else
    let totalPayments := existingPayments + amount
    if totalPayments > invoiceBalance + existingPayments then
      .error (.validationError "Total payments cannot exceed invoice total amount" "amount")
    else
      .ok ()

/-- JavaScript `String.prototype.trim`: strips leading and trailing
whitespace.  Modelled directly on the character list (rather than through
`String.trim`'s substring machinery) so that it evaluates by `decide`. -/
def trimWS (s : String) : String :=
  ⟨((s.data.dropWhile Char.isWhitespace).reverse.dropWhile Char.isWhitespace).reverse⟩

/-- Function `validateBankDetails` from `src/types/index.ts` (lines 666–682).
`!bankName || bankName.trim() === ''` becomes: falsy, or trims to empty. -/
def validateBankDetails (paymentMethod : String)
    (bankName transactionRef : Option String) : Except Err Unit :=
  if paymentMethod = "bank_transfer" then
    if truthyStr bankName = false ∨ trimWS (bankName.getD "") = "" then
      .error (.validationError "Bank name is required for bank transfer payments" "bank_name")
    else if truthyStr transactionRef = false ∨ trimWS (transactionRef.getD "") = "" then
      .error (.validationError
        "Transaction reference is required for bank transfer payments" "transaction_reference")
    else
      .ok ()
  else
    .ok ()

/-- The aggregate query of `getInvoiceDetails` (lines 36–44):
`select amount from payments where invoice_id = … and status = 'confirmed'`,
then `reduce((sum, p) => sum + p.amount, 0)`. -/
def confirmedSum (invoiceId : String) (payments : List Payment) : Rat :=
  ((payments.filter fun p =>
      p.invoice_id == invoiceId && p.status == PaymentStatus.confirmed).map
    Payment.amount).sum

/-- The object returned by `getInvoiceDetails`: the spread invoice row
(`...invoice`, with its stored fields intact) together with the added
`current_paid_amount` field and the overriding `balance` field. -/
structure InvoiceDetails where
  inv : Invoice
  current_paid_amount : Rat
  balance : Rat
deriving DecidableEq, Repr

/-- Function `getInvoiceDetails` from `src/lib/paymentService.ts` (lines 24–53):
point-loads the invoice, recomputes the confirmed-payments total, and returns
the invoice with `current_paid_amount` and `balance = total_amount − current_paid_amount`. -/
def getInvoiceDetails (db : DB) (invoiceId : String) : Except Err InvoiceDetails :=
  match db.invoices.find? (fun i => i.id == invoiceId) with
  | none => .error (.invoiceError "Invoice not found")
  | some invoice =>
    let current_paid_amount := confirmedSum invoiceId db.payments
    .ok { inv := invoice
          current_paid_amount := current_paid_amount
          balance := invoice.total_amount - current_paid_amount }

/-- An `UPDATE … WHERE id = key` against a table: every row whose id matches
`key` is replaced by `f` of that row; other rows are untouched. -/
def updateById (idOf : α → String) (key : String) (f : α → α) (l : List α) : List α :=
  l.map fun x => if idOf x == key then f x else x

/-- The payment-row update of `confirmPayment` (lines 143–149):
`status = 'confirmed', confirmed_by = confirmedBy`. -/
def confirmPaymentRow (confirmedBy : String) (p : Payment) : Payment :=
  { p with status := .confirmed, confirmed_by := some confirmedBy }

/-- The invoice-row update of `confirmPayment` (lines 155–163):
`paid_amount = newPaidAmount, status = newStatus`; the store recomputes the
`balance` computed column. -/
def updateInvoiceRow (newPaidAmount : Rat) (newStatus : InvoiceStatus) (i : Invoice) : Invoice :=
  { i with paid_amount := newPaidAmount
           status := newStatus
           balance := i.total_amount - newPaidAmount }

/-- Record `PaymentResult` from `src/lib/paymentService.ts` (lines 15–19). -/
structure PaymentResult where
  payment : Payment
  updatedInvoice : Invoice
  invoiceStatusChanged : Bool
deriving DecidableEq, Repr

/-- Injectable failures of the two write statements inside `confirmPayment`;
the source performs them as two separate store calls, so either can fail on
its own. -/
structure WriteFaults where
  failPaymentWrite : Bool
  failInvoiceWrite : Bool
deriving DecidableEq, Repr

/-- Function `confirmPayment` from `src/lib/paymentService.ts` (lines 116–173), as a
state transformer on the store.  The returned `DB` is the store after the
call, whether the call failed or succeeded: a write that was executed before a
later failure stays executed, exactly as with the source's two separate
non-transactional store calls. -/
def confirmPaymentWith (wf : WriteFaults) (db : DB)
    (paymentId confirmedBy : String) : Except Err PaymentResult × DB :=
  match db.payments.find? (fun p => p.id == paymentId) with
  | none => (.error (.paymentError "Payment not found"), db)
  | some payment =>
    if payment.status = .confirmed then
      (.error (.paymentError "Payment is already confirmed"), db)
    else
      match getInvoiceDetails db payment.invoice_id with
      | .error e => (.error e, db)
      | .ok invoice =>
        let newPaidAmount := invoice.current_paid_amount + payment.amount
        let newStatus := calculateInvoiceStatus invoice.inv.total_amount newPaidAmount
        if wf.failPaymentWrite then
          (.error .storeError, db)
        else
          let db1 : DB :=
            { db with payments :=
                updateById Payment.id paymentId (confirmPaymentRow confirmedBy) db.payments }
          if wf.failInvoiceWrite then
            (.error .storeError, db1)
          else
            let db2 : DB :=
              { db1 with invoices :=
                  updateById Invoice.id payment.invoice_id (updateInvoiceRow newPaidAmount newStatus) db1.invoices }
            match db2.invoices.find? (fun i => i.id == payment.invoice_id) with
            | none => (.error .storeError, db2)
            | some updatedInvoice =>
              (.ok { payment := confirmPaymentRow confirmedBy payment
                     updatedInvoice := updatedInvoice
                     invoiceStatusChanged := invoice.inv.status != newStatus }, db2)

/-- Function `confirmPayment` with both writes succeeding (the fault-free run). -/
def confirmPayment (db : DB) (paymentId confirmedBy : String) :
    Except Err PaymentResult × DB :=
  confirmPaymentWith ⟨false, false⟩ db paymentId confirmedBy

/-- Function `getInvoicePayments` from `src/lib/paymentService.ts` (lines 178–189):
all payments of the invoice.  The source's `order by payment_date desc` only
permutes the returned rows and is left to the store model. -/
def getInvoicePayments (db : DB) (invoiceId : String) : List Payment :=
  db.payments.filter fun p => p.invoice_id == invoiceId

/-- The result record of `validateInvoicePayments` (lines 194–199). -/
structure AuditResult where
  isValid : Bool
  totalPayments : Rat
  invoiceTotal : Rat
  errors : List String
deriving DecidableEq, Repr

/-- The filter `payments.filter(p => p.status === 'confirmed')` over the invoice's
payments (line 204). -/
def confirmedPaymentsOf (db : DB) (invoiceId : String) : List Payment :=
  (getInvoicePayments db invoiceId).filter fun p => p.status == PaymentStatus.confirmed

/-- Lines 214–216: the truthy transaction references of the confirmed
payments (a `null` or empty reference is falsy and drops out of the scan). -/
def transactionRefsOf (db : DB) (invoiceId : String) : List String :=
  ((confirmedPaymentsOf db invoiceId).filter fun p => truthyStr p.transaction_reference).map
    fun p => p.transaction_reference.getD ""

/-- Lines 218–220: `refs.filter((ref, index) => refs.indexOf(ref) !== index)` —
every occurrence of a value after that value's first occurrence. -/
def dupScan (refs : List String) : List String :=
  (refs.enum.filter fun ir => refs.indexOf ir.2 != ir.1).map Prod.snd

/-- The duplicate transaction references of an invoice's confirmed payments. -/
def duplicateRefsOf (db : DB) (invoiceId : String) : List String :=
  dupScan (transactionRefsOf db invoiceId)

/-- Function `validateInvoicePayments` from `src/lib/paymentService.ts` (lines 194–233),
translated clause by clause: confirmed payments are summed; error 1 when the
sum exceeds the invoice total; error 2 when the duplicate scan over the truthy
transaction references is non-empty. -/
def validateInvoicePayments (db : DB) (invoiceId : String) : Except Err AuditResult :=
  match getInvoiceDetails db invoiceId with
  | .error e => .error e
  | .ok invoice =>
    let totalPayments := ((confirmedPaymentsOf db invoiceId).map Payment.amount).sum
    let duplicateRefs := duplicateRefsOf db invoiceId
    let errors :=
      (if totalPayments > invoice.inv.total_amount then
        ["Total payments (" ++ formatCurrency totalPayments ++ ") exceed invoice total ("
          ++ formatCurrency invoice.inv.total_amount ++ ")"]
      else []) ++
      (if duplicateRefs.length > 0 then
        ["Duplicate transaction references found: " ++ String.intercalate ", " duplicateRefs]
      else [])
    .ok { isValid := errors.length == 0
          totalPayments := totalPayments
          invoiceTotal := invoice.inv.total_amount
          errors := errors }



/-- The ordering pending < partial < paid used by the status monotonicity
property (`overdue`/`cancelled` are never produced by `calculateInvoiceStatus`
and get ranks that do not matter for it). -/
def statusRank : InvoiceStatus → Nat
  | .pending => 0
  | .partialStatus => 1
  | .paid => 2
  | .overdue => 3
  | .cancelled => 4


/-- A concrete invoice used by the witness theorems (the spec's end-to-end
scenario: total 10000, nothing paid). -/
def exInv : Invoice := ⟨"I1", 10000, 0, 10000, .pending⟩

/-- A concrete pending payment of 4000 on `exInv`. -/
def exP1 : Payment := ⟨"P1", "I1", 4000, .pending, none, none⟩

/-- A concrete pending payment of 6000 on `exInv`. -/
def exP2 : Payment := ⟨"P2", "I1", 6000, .pending, none, none⟩

/-- A concrete store holding `exInv`, `exP1` and `exP2`. -/
def exDB : DB := ⟨[exInv], [exP1, exP2]⟩

/-! ### Helper lemmas about the store model -/

/-- An `UPDATE … WHERE id = key` that matches no row leaves the table as it was. -/
theorem updateById_of_forall_ne {α : Type} (idOf : α → String) (key : String)
    (f : α → α) (l : List α) (h : ∀ x ∈ l, idOf x ≠ key) :
    updateById idOf key f l = l := by
  induction l with
  | nil => rfl
  | cons a t ih =>
    have ha : (idOf a == key) = false := by
      simpa using h a (List.mem_cons_self a t)
    simp only [updateById, List.map_cons, ha, Bool.false_eq_true, if_false]
    exact congrArg (a :: ·) (ih fun x hx => h x (List.mem_cons_of_mem a hx))

/-- Unfolding of a row update over a cons cell. -/
theorem updateById_cons {α : Type} (idOf : α → String) (key : String)
    (f : α → α) (a : α) (t : List α) :
    updateById idOf key f (a :: t) =
      (if idOf a == key then f a else a) :: updateById idOf key f t := rfl

/-- Point lookup of the updated key after an id-preserving row update. -/
theorem find?_updateById_self {α : Type} (idOf : α → String) (key : String)
    (f : α → α) (l : List α) (v : α)
    (hpres : ∀ x, idOf (f x) = idOf x)
    (h : l.find? (fun x => idOf x == key) = some v) :
    (updateById idOf key f l).find? (fun x => idOf x == key) = some (f v) := by
  induction l with
  | nil => simp at h
  | cons a t ih =>
    rw [List.find?_cons] at h
    cases ha : (idOf a == key) with
    | true =>
      rw [ha] at h
      have hv : a = v := by simpa using h
      subst hv
      have hfa : (idOf (f a) == key) = true := by rw [hpres]; exact ha
      rw [updateById_cons, if_pos ha, List.find?_cons, hfa]
    | false =>
      rw [ha] at h
      rw [updateById_cons, if_neg (by simp [ha]), List.find?_cons, ha]
      exact ih h

/-- Point lookup of a different key is unaffected by an id-preserving row
update. -/
theorem find?_updateById_ne {α : Type} (idOf : α → String) (key key' : String)
    (f : α → α) (l : List α)
    (hpres : ∀ x, idOf (f x) = idOf x)
    (hne : key' ≠ key) :
    (updateById idOf key f l).find? (fun x => idOf x == key') =
      l.find? (fun x => idOf x == key') := by
  induction l with
  | nil => rfl
  | cons a t ih =>
    by_cases hk : (idOf a == key) = true
    · have hk' : (idOf a == key') = false := by
        have : idOf a = key := by simpa using hk
        simpa [this] using fun h => hne h.symm
      have hfk' : (idOf (f a) == key') = false := by rw [hpres]; exact hk'
      simp only [updateById, List.map_cons, hk, if_true]
      rw [List.find?_cons, hfk', List.find?_cons, hk']
      exact ih
    · simp only [updateById, List.map_cons, hk, Bool.false_eq_true, if_false]
      rw [List.find?_cons, List.find?_cons]
      cases hk' : (idOf a == key') with
      | true => rfl
      | false => exact ih

/-- Unfolding of the confirmed-payments sum over a cons cell. -/
theorem confirmedSum_cons (invoiceId : String) (a : Payment) (t : List Payment) :
    confirmedSum invoiceId (a :: t) =
      (if a.invoice_id == invoiceId && a.status == PaymentStatus.confirmed
        then a.amount else 0) + confirmedSum invoiceId t := by
  by_cases h : (a.invoice_id == invoiceId && a.status == PaymentStatus.confirmed) = true
  · simp [confirmedSum, List.filter_cons, h]
  · simp [confirmedSum, List.filter_cons, h]

/-- Confirming a pending payment row adds exactly its amount to the invoice's
confirmed-payments sum, provided payment ids are unique (they are primary
keys in the store). -/
theorem confirmedSum_updateById_confirm (invoiceId pid cby : String)
    (l : List Payment) (p : Payment)
    (hnd : (l.map Payment.id).Nodup)
    (h : l.find? (fun q => q.id == pid) = some p)
    (hpend : p.status ≠ PaymentStatus.confirmed)
    (hinv : p.invoice_id = invoiceId) :
    confirmedSum invoiceId (updateById Payment.id pid (confirmPaymentRow cby) l)
      = confirmedSum invoiceId l + p.amount := by
  induction l with
  | nil => simp at h
  | cons a t ih =>
    rw [List.map_cons, List.nodup_cons] at hnd
    obtain ⟨hna, hndt⟩ := hnd
    rw [List.find?_cons] at h
    cases ha : (a.id == pid) with
    | true =>
      rw [ha] at h
      have hv : a = p := by simpa using h
      subst hv
      have haid : a.id = pid := by simpa using ha
      have ht : updateById Payment.id pid (confirmPaymentRow cby) t = t := by
        refine updateById_of_forall_ne _ _ _ _ fun x hx hxp => ?_
        exact hna (haid ▸ hxp ▸ List.mem_map_of_mem Payment.id hx)
      rw [updateById_cons, if_pos ha, ht, confirmedSum_cons, confirmedSum_cons]
      have h1 : ((confirmPaymentRow cby a).invoice_id == invoiceId &&
          (confirmPaymentRow cby a).status == PaymentStatus.confirmed) = true := by
        simp [confirmPaymentRow, hinv]
      have h2 : (a.invoice_id == invoiceId && a.status == PaymentStatus.confirmed) = false := by
        simp [hpend]
      rw [h1, h2, if_pos rfl, if_neg (by simp)]
      simp [confirmPaymentRow]
      ring
    | false =>
      rw [ha] at h
      rw [updateById_cons, if_neg (by simp [ha]), confirmedSum_cons, confirmedSum_cons,
        ih hndt h]
      ring

/-- The fault-free run of `confirmPayment` on a found, not-yet-confirmed
payment whose invoice resolves: the full result and post-state equation.
The recomputed sum `confirmedSum p.invoice_id db.payments` ranges over the
*confirmed* payments only, so the payment being confirmed (still pending) is
not counted in it. -/
theorem confirmPayment_eq (db : DB) (pid cby : String) (p : Payment) (inv : Invoice)
    (hp : db.payments.find? (fun q => q.id == pid) = some p)
    (hst : p.status ≠ PaymentStatus.confirmed)
    (hi : db.invoices.find? (fun i => i.id == p.invoice_id) = some inv) :
    confirmPayment db pid cby =
      (Except.ok
        { payment := confirmPaymentRow cby p
          updatedInvoice := updateInvoiceRow (confirmedSum p.invoice_id db.payments + p.amount)
            (calculateInvoiceStatus inv.total_amount (confirmedSum p.invoice_id db.payments + p.amount)) inv
          invoiceStatusChanged :=
            inv.status != calculateInvoiceStatus inv.total_amount (confirmedSum p.invoice_id db.payments + p.amount) },
       { invoices := updateById Invoice.id p.invoice_id
            (updateInvoiceRow (confirmedSum p.invoice_id db.payments + p.amount)
              (calculateInvoiceStatus inv.total_amount (confirmedSum p.invoice_id db.payments + p.amount))) db.invoices
         payments := updateById Payment.id pid (confirmPaymentRow cby) db.payments }) := by
  have hfind := find?_updateById_self Invoice.id p.invoice_id
    (updateInvoiceRow (confirmedSum p.invoice_id db.payments + p.amount)
      (calculateInvoiceStatus inv.total_amount (confirmedSum p.invoice_id db.payments + p.amount)))
    db.invoices inv (fun x => rfl) hi
  simp only [confirmPayment, confirmPaymentWith, hp, getInvoiceDetails, hi, if_neg hst]
  simp only [hfind]
  rfl

/-- C8: `calculate_status(T, P)` returns "pending" if P ≤ 0, otherwise "paid"
if P ≥ T, otherwise "partial"; for fixed T the result is monotone
non-decreasing in P under the ordering pending < partial < paid. -/
theorem calculateInvoiceStatus_spec (T P : Rat) :
    (P ≤ 0 → calculateInvoiceStatus T P = .pending) ∧
    (¬ P ≤ 0 → P ≥ T → calculateInvoiceStatus T P = .paid) ∧
    (¬ P ≤ 0 → ¬ P ≥ T → calculateInvoiceStatus T P = .partialStatus) ∧
    (∀ P' : Rat, P ≤ P' →
      statusRank (calculateInvoiceStatus T P) ≤ statusRank (calculateInvoiceStatus T P')) := by
  refine ⟨?_, ?_, ?_, ?_⟩
  · intro h; simp [calculateInvoiceStatus, h]
  · intro h1 h2; simp [calculateInvoiceStatus, h1, h2]
  · intro h1 h2; simp [calculateInvoiceStatus, h1, h2]
  · intro P' hle
    unfold calculateInvoiceStatus
    split_ifs <;> simp [statusRank] <;> linarith

/-- Witness for C8 at T = 10000, P = 4000 ≤ P' = 12000. -/
theorem calculateInvoiceStatus_spec_witness :
    calculateInvoiceStatus 10000 4000 = .partialStatus ∧
    statusRank (calculateInvoiceStatus 10000 4000) ≤
      statusRank (calculateInvoiceStatus 10000 12000) :=
  ⟨(calculateInvoiceStatus_spec 10000 4000).2.2.1 (by norm_num) (by norm_num),
   (calculateInvoiceStatus_spec 10000 4000).2.2.2 12000 (by norm_num)⟩

/-- C4: `validate_payment_amount` fails with a ValidationError on field
"amount" iff amount ≤ 0 or amount > invoiceBalance; when the first two checks
pass it returns successfully (the third check never fires), and the outcome
does not depend on `existingPayments` at all. -/
theorem validatePaymentAmount_spec (amount invoiceBalance existingPayments : Rat) :
    ((∃ msg, validatePaymentAmount amount invoiceBalance existingPayments =
        .error (.validationError msg "amount")) ↔
      (amount ≤ 0 ∨ amount > invoiceBalance)) ∧
    (¬ amount ≤ 0 → ¬ amount > invoiceBalance →
      validatePaymentAmount amount invoiceBalance existingPayments = .ok ()) ∧
    validatePaymentAmount amount invoiceBalance existingPayments =
      validatePaymentAmount amount invoiceBalance 0 := by
  have hok : ∀ e : Rat, ¬ amount ≤ 0 → ¬ amount > invoiceBalance →
      validatePaymentAmount amount invoiceBalance e = .ok () := by
    intro e h1 h2
    unfold validatePaymentAmount
    rw [if_neg h1, if_neg h2, if_neg (by intro h; exact h2 (by linarith))]
  refine ⟨⟨?_, ?_⟩, hok existingPayments, ?_⟩
  · rintro ⟨msg, hmsg⟩
    by_contra hcon
    push_neg at hcon
    rw [hok existingPayments (by linarith [hcon.1]) (by simpa using hcon.2)] at hmsg
    exact Except.noConfusion hmsg
  · intro h
    unfold validatePaymentAmount
    rcases h with h | h
    · exact ⟨_, by rw [if_pos h]⟩
    · rcases le_or_lt amount 0 with h0 | h0
      · exact ⟨_, by rw [if_pos h0]⟩
      · exact ⟨_, by rw [if_neg (by linarith), if_pos h]⟩
  · rcases le_or_lt amount 0 with h0 | h0
    · unfold validatePaymentAmount
      rw [if_pos h0, if_pos h0]
    · rcases le_or_lt amount invoiceBalance with hb | hb
      · rw [hok existingPayments (by linarith) (by linarith),
          hok 0 (by linarith) (by linarith)]
      · unfold validatePaymentAmount
        rw [if_neg (by linarith : ¬ amount ≤ 0), if_pos (by linarith : amount > invoiceBalance),
          if_neg (by linarith : ¬ amount ≤ 0), if_pos (by linarith : amount > invoiceBalance)]

/-- Witness for C4 at amount = 4000, balance = 10000, existing = 123. -/
theorem validatePaymentAmount_spec_witness :
    validatePaymentAmount 4000 10000 123 = .ok () :=
  (validatePaymentAmount_spec 4000 10000 123).2.1 (by norm_num) (by norm_num)

/-- C5: `getInvoiceDetails` returns `current_paid_amount` recomputed as the
sum of the invoice's confirmed payments' amounts and
`balance = total_amount − that sum`; the stored `paid_amount`/`balance`
fields do not enter either value (second conjunct: overwriting them with
arbitrary q, r changes nothing but the spread-through stored fields). -/
theorem getInvoiceDetails_recomputes (db : DB) (invoiceId : String) (inv : Invoice) (q r : Rat)
    (hi : db.invoices.find? (fun i => i.id == invoiceId) = some inv) :
    getInvoiceDetails db invoiceId =
      .ok ⟨inv, confirmedSum invoiceId db.payments,
        inv.total_amount - confirmedSum invoiceId db.payments⟩ ∧
    getInvoiceDetails
        ⟨updateById Invoice.id invoiceId
          (fun i => { i with paid_amount := q, balance := r }) db.invoices, db.payments⟩
        invoiceId =
      .ok ⟨{ inv with paid_amount := q, balance := r }, confirmedSum invoiceId db.payments,
        inv.total_amount - confirmedSum invoiceId db.payments⟩ := by
  constructor
  · simp only [getInvoiceDetails, hi]
  · have hfind := find?_updateById_self Invoice.id invoiceId
      (fun i => { i with paid_amount := q, balance := r }) db.invoices inv (fun x => rfl) hi
    simp only [getInvoiceDetails, hfind]

/-- Witness for C5 on the concrete store `exDB` (stored fields perturbed to
paid_amount = 5, balance = 7). -/
theorem getInvoiceDetails_recomputes_witness :
    getInvoiceDetails exDB "I1" = .ok ⟨exInv, 0, 10000⟩ ∧
    getInvoiceDetails
        ⟨updateById Invoice.id "I1"
          (fun i => { i with paid_amount := 5, balance := 7 }) exDB.invoices, exDB.payments⟩
        "I1" =
      .ok ⟨{ exInv with paid_amount := 5, balance := 7 }, 0, 10000⟩ := by
  have h := getInvoiceDetails_recomputes exDB "I1" exInv 5 7 rfl
  refine ⟨?_, ?_⟩
  · rw [h.1]
    simp [exInv, exDB, exP1, exP2, confirmedSum, InvoiceDetails.mk.injEq]
  · rw [h.2]
    simp [exInv, exDB, exP1, exP2, confirmedSum, InvoiceDetails.mk.injEq]

/-- C6: confirming an already-confirmed payment fails with a PaymentError and
performs no write, for every fault configuration: the store is returned
exactly as it was. -/
theorem confirmPayment_already_confirmed_noop (wf : WriteFaults) (db : DB)
    (pid cby : String) (p : Payment)
    (hp : db.payments.find? (fun q => q.id == pid) = some p)
    (hst : p.status = PaymentStatus.confirmed) :
    confirmPaymentWith wf db pid cby =
      (.error (.paymentError "Payment is already confirmed"), db) := by
  simp only [confirmPaymentWith, hp, if_pos hst]

/-- Witness for C6: re-confirming a confirmed copy of `exP1`. -/
theorem confirmPayment_already_confirmed_noop_witness :
    confirmPaymentWith ⟨false, false⟩
        ⟨[exInv], [⟨"P1", "I1", 4000, .confirmed, none, some "u0"⟩]⟩ "P1" "u1" =
      (.error (.paymentError "Payment is already confirmed"),
       ⟨[exInv], [⟨"P1", "I1", 4000, .confirmed, none, some "u0"⟩]⟩) :=
  confirmPayment_already_confirmed_noop ⟨false, false⟩
    ⟨[exInv], [⟨"P1", "I1", 4000, .confirmed, none, some "u0"⟩]⟩ "P1" "u1"
    ⟨"P1", "I1", 4000, .confirmed, none, some "u0"⟩ rfl rfl

/-- C9: an unresolvable invoice id makes `getInvoiceDetails` — and the
operations loading the invoice through it — fail with
InvoiceError("Invoice not found"); an unresolvable payment id makes
`confirmPayment` fail with PaymentError("Payment not found"); no state
changes in either case. -/
theorem notFound_errors (db : DB) (invoiceId missingPid pid cby cby2 : String) (p : Payment)
    (hinv : db.invoices.find? (fun i => i.id == invoiceId) = none)
    (hmp : db.payments.find? (fun q => q.id == missingPid) = none)
    (hp : db.payments.find? (fun q => q.id == pid) = some p)
    (hst : p.status ≠ PaymentStatus.confirmed)
    (hpi : p.invoice_id = invoiceId) :
    getInvoiceDetails db invoiceId = .error (.invoiceError "Invoice not found") ∧
    validateInvoicePayments db invoiceId = .error (.invoiceError "Invoice not found") ∧
    confirmPayment db missingPid cby = (.error (.paymentError "Payment not found"), db) ∧
    confirmPayment db pid cby2 = (.error (.invoiceError "Invoice not found"), db) := by
  have hg : getInvoiceDetails db invoiceId = .error (.invoiceError "Invoice not found") := by
    simp only [getInvoiceDetails, hinv]
  refine ⟨hg, ?_, ?_, ?_⟩
  · simp only [validateInvoicePayments, hg]
  · simp only [confirmPayment, confirmPaymentWith, hmp]
  · simp only [confirmPayment, confirmPaymentWith, hp, if_neg hst, hpi, hg]

/-- Witness for C9 on a store with no invoices and one pending orphan payment. -/
theorem notFound_errors_witness :
    getInvoiceDetails ⟨[], [⟨"P1", "I1", 5, .pending, none, none⟩]⟩ "I1" =
      .error (.invoiceError "Invoice not found") ∧
    confirmPayment ⟨[], [⟨"P1", "I1", 5, .pending, none, none⟩]⟩ "PX" "u" =
      (.error (.paymentError "Payment not found"),
       ⟨[], [⟨"P1", "I1", 5, .pending, none, none⟩]⟩) ∧
    confirmPayment ⟨[], [⟨"P1", "I1", 5, .pending, none, none⟩]⟩ "P1" "u" =
      (.error (.invoiceError "Invoice not found"),
       ⟨[], [⟨"P1", "I1", 5, .pending, none, none⟩]⟩) := by
  have h := notFound_errors ⟨[], [⟨"P1", "I1", 5, .pending, none, none⟩]⟩
    "I1" "PX" "P1" "u" "u" ⟨"P1", "I1", 5, .pending, none, none⟩
    rfl rfl rfl (by decide) rfl
  exact ⟨h.1, h.2.2.1, h.2.2.2⟩

/-- C2: a successful `confirmPayment` on a pending payment sets the invoice's
paid_amount to S + p.amount where S is the recomputed confirmed sum (which
cannot count p — p is still pending), sets the invoice status to
`calculate_status(total, S + p.amount)`, marks p confirmed with
confirmed_by, and reports `status_changed` exactly when the stored invoice
status differs from the new one; the updated rows are also what the store
holds afterwards. -/
theorem confirmPayment_spec (db : DB) (pid cby : String) (p : Payment) (inv : Invoice)
    (hp : db.payments.find? (fun q => q.id == pid) = some p)
    (hpend : p.status = PaymentStatus.pending)
    (hi : db.invoices.find? (fun i => i.id == p.invoice_id) = some inv) :
    ∃ res db',
      confirmPayment db pid cby = (Except.ok res, db') ∧
      res.updatedInvoice.paid_amount = confirmedSum p.invoice_id db.payments + p.amount ∧
      res.updatedInvoice.status =
        calculateInvoiceStatus inv.total_amount
          (confirmedSum p.invoice_id db.payments + p.amount) ∧
      res.payment.status = PaymentStatus.confirmed ∧
      res.payment.confirmed_by = some cby ∧
      (res.invoiceStatusChanged = true ↔
        inv.status ≠ calculateInvoiceStatus inv.total_amount
          (confirmedSum p.invoice_id db.payments + p.amount)) ∧
      db'.invoices.find? (fun i => i.id == p.invoice_id) = some res.updatedInvoice ∧
      db'.payments.find? (fun q => q.id == pid) = some res.payment := by
  have hst : p.status ≠ PaymentStatus.confirmed := by simp [hpend]
  refine ⟨_, _, confirmPayment_eq db pid cby p inv hp hst hi,
    rfl, rfl, rfl, rfl, bne_iff_ne, ?_, ?_⟩
  · exact find?_updateById_self Invoice.id p.invoice_id _ db.invoices inv (fun x => rfl) hi
  · exact find?_updateById_self Payment.id pid _ db.payments p (fun x => rfl) hp

/-- Witness for C2: confirming `exP1` on `exDB` (4000 against a 10000
invoice with nothing confirmed). -/
theorem confirmPayment_spec_witness :
    ∃ res db',
      confirmPayment exDB "P1" "u1" = (Except.ok res, db') ∧
      res.updatedInvoice.paid_amount = confirmedSum "I1" exDB.payments + exP1.amount ∧
      res.updatedInvoice.status =
        calculateInvoiceStatus exInv.total_amount
          (confirmedSum "I1" exDB.payments + exP1.amount) ∧
      res.payment.status = PaymentStatus.confirmed ∧
      res.payment.confirmed_by = some "u1" ∧
      (res.invoiceStatusChanged = true ↔
        exInv.status ≠ calculateInvoiceStatus exInv.total_amount
          (confirmedSum "I1" exDB.payments + exP1.amount)) ∧
      db'.invoices.find? (fun i => i.id == "I1") = some res.updatedInvoice ∧
      db'.payments.find? (fun q => q.id == "P1") = some res.payment :=
  confirmPayment_spec exDB "P1" "u1" exP1 exInv rfl rfl rfl

/-- Unfolding of `indexOf` through a cons cell. -/
theorem indexOf_cons_eq_ite (a b : String) (t : List String) :
    (b :: t).indexOf a = if b == a then 0 else t.indexOf a + 1 := by
  simp [List.indexOf, List.findIdx_cons, cond_eq_if]

/-- On a duplicate-free list every position is its value's first index. -/
theorem indexOf_getElem?_of_nodup (l : List String) (hnd : l.Nodup)
    (i : Nat) (r : String) (h : l[i]? = some r) : l.indexOf r = i := by
  induction l generalizing i with
  | nil => simp at h
  | cons b t ih =>
    rw [List.nodup_cons] at hnd
    obtain ⟨hb, hndt⟩ := hnd
    cases i with
    | zero =>
      have hbr : b = r := by simpa using h
      subst hbr
      rw [indexOf_cons_eq_ite, if_pos (by simp)]
    | succ n =>
      have ht : t[n]? = some r := by simpa using h
      have hr : r ∈ t := by
        obtain ⟨hn, he⟩ := List.getElem?_eq_some.mp ht
        exact he ▸ List.getElem_mem hn
      have hbr : (b == r) = false := by
        have : b ≠ r := fun e => hb (e ▸ hr)
        simpa using this
      rw [indexOf_cons_eq_ite, if_neg (by simp [hbr]), ih hndt n ht]

/-- The scan `refs.filter((ref, index) => refs.indexOf(ref) !== index)` comes
back empty exactly when the list has no duplicate value. -/
theorem dupScan_eq_nil_iff (l : List String) : dupScan l = [] ↔ l.Nodup := by
  rw [dupScan, List.map_eq_nil_iff, List.filter_eq_nil_iff]
  constructor
  · intro h
    have key : ∀ (i : Nat) (hi : i < l.length), l.indexOf (l.get ⟨i, hi⟩) = i := by
      intro i hi
      have hmem : ((i, l.get ⟨i, hi⟩) : Nat × String) ∈ l.enum := by
        rw [List.mk_mem_enum_iff_getElem?]
        simp [List.getElem?_eq_getElem hi]
      simpa using h _ hmem
    rw [List.nodup_iff_injective_get]
    intro a b hab
    have ha := key a.1 a.2
    have hb := key b.1 b.2
    rw [hab] at ha
    exact Fin.ext (ha.symm.trans hb)
  · intro hnd x hx
    rw [List.mk_mem_enum_iff_getElem?] at hx
    have := indexOf_getElem?_of_nodup l hnd x.1 x.2 hx
    simp [this]

/-- C7: `validateInvoicePayments` on a loadable invoice never throws: it
returns totalPayments = the confirmed payments' sum, invoiceTotal =
total_amount, an over-collection error entry when the sum exceeds the total,
a duplicate-references entry when some truthy transaction reference occurs
more than once among confirmed payments, and isValid exactly when the error
list is empty (and only for those two conditions). -/
theorem validateInvoicePayments_spec (db : DB) (invoiceId : String) (inv : Invoice)
    (hi : db.invoices.find? (fun i => i.id == invoiceId) = some inv) :
    ∃ res : AuditResult,
      validateInvoicePayments db invoiceId = .ok res ∧
      res.totalPayments = ((confirmedPaymentsOf db invoiceId).map Payment.amount).sum ∧
      res.invoiceTotal = inv.total_amount ∧
      (res.isValid = true ↔ res.errors = []) ∧
      (res.errors = [] ↔
        (res.totalPayments ≤ inv.total_amount ∧ (transactionRefsOf db invoiceId).Nodup)) ∧
      (res.totalPayments > inv.total_amount →
        ("Total payments (" ++ formatCurrency res.totalPayments ++ ") exceed invoice total ("
          ++ formatCurrency inv.total_amount ++ ")") ∈ res.errors) ∧
      (¬ (transactionRefsOf db invoiceId).Nodup →
        ("Duplicate transaction references found: "
          ++ String.intercalate ", " (duplicateRefsOf db invoiceId)) ∈ res.errors) := by
  have hdup : (duplicateRefsOf db invoiceId).length > 0 ↔
      ¬ (transactionRefsOf db invoiceId).Nodup := by
    rw [← dupScan_eq_nil_iff (transactionRefsOf db invoiceId)]
    simp [duplicateRefsOf, List.length_pos]
  simp only [validateInvoicePayments, getInvoiceDetails, hi]
  refine ⟨_, rfl, rfl, rfl, ?_, ?_, ?_, ?_⟩
  · simp [List.length_eq_zero]
  · by_cases hT : ((confirmedPaymentsOf db invoiceId).map Payment.amount).sum > inv.total_amount
    · simp [hT, not_le.mpr hT]
    · by_cases hD : (duplicateRefsOf db invoiceId).length > 0
      · simp [hT, hD, hdup.mp hD]
      · simp [hT, hD, not_lt.mp hT, not_not.mp (fun hn => hD (hdup.mpr hn))]
  · intro hT
    simp [hT]
  · intro hnd
    have hD : (duplicateRefsOf db invoiceId).length > 0 := hdup.mpr hnd
    simp only [hD, if_pos]
    exact List.mem_append_right _ (by simp)

/-- Witness for C7: an invoice over-collected (60 + 70 > 100) with a
duplicated reference "R1". -/
theorem validateInvoicePayments_spec_witness :
    ∃ res : AuditResult,
      validateInvoicePayments
          ⟨[⟨"I2", 100, 0, 100, .pending⟩],
           [⟨"Q1", "I2", 60, .confirmed, some "R1", none⟩,
            ⟨"Q2", "I2", 70, .confirmed, some "R1", none⟩]⟩ "I2" = .ok res ∧
      res.invoiceTotal = 100 ∧ (res.isValid = true ↔ res.errors = []) := by
  obtain ⟨res, h1, h2, h3, h4, h5, h6, h7⟩ :=
    validateInvoicePayments_spec
      ⟨[⟨"I2", 100, 0, 100, .pending⟩],
       [⟨"Q1", "I2", 60, .confirmed, some "R1", none⟩,
        ⟨"Q2", "I2", 70, .confirmed, some "R1", none⟩]⟩ "I2"
      ⟨"I2", 100, 0, 100, .pending⟩ rfl
  exact ⟨res, h1, h3, h4⟩

/-- C10: in `validateInvoicePayments` a confirmed payment participates in
duplicate transaction-reference detection iff its reference is truthy — null
and the empty string are excluded, whitespace-only strings are included, so
two confirmed payments sharing " " are reported as duplicates; unlike
`validateBankDetails`, which trims and so treats " " as empty. -/
theorem dupDetection_truthiness :
    (∀ o : Option String, truthyStr o = true ↔ (o ≠ none ∧ o ≠ some "")) ∧
    (∀ (db : DB) (invoiceId : String),
      transactionRefsOf db invoiceId =
        ((confirmedPaymentsOf db invoiceId).filter fun p =>
          decide (p.transaction_reference ≠ none ∧ p.transaction_reference ≠ some "")).map
          (fun p => p.transaction_reference.getD "")) ∧
    (∃ res : AuditResult,
      validateInvoicePayments
          ⟨[⟨"I3", 100, 0, 100, .pending⟩],
           [⟨"W1", "I3", 1, .confirmed, some " ", none⟩,
            ⟨"W2", "I3", 2, .confirmed, some " ", none⟩]⟩ "I3" = .ok res ∧
      res.isValid = false ∧
      res.errors = ["Duplicate transaction references found:  "]) ∧
    (∃ res : AuditResult,
      validateInvoicePayments
          ⟨[⟨"I3", 100, 0, 100, .pending⟩],
           [⟨"W1", "I3", 1, .confirmed, some "", none⟩,
            ⟨"W2", "I3", 2, .confirmed, some "", none⟩]⟩ "I3" = .ok res ∧
      res.isValid = true ∧ res.errors = []) ∧
    validateBankDetails "bank_transfer" (some "First Bank") (some " ") =
      .error (.validationError
        "Transaction reference is required for bank transfer payments" "transaction_reference") := by
  refine ⟨?_, ?_, ?_, ?_, ?_⟩
  · intro o
    cases o with
    | none => simp [truthyStr]
    | some s => simp [truthyStr]
  · intro db invoiceId
    unfold transactionRefsOf
    congr 1
    apply List.filter_congr
    intro p _
    cases hr : p.transaction_reference with
    | none => simp [truthyStr]
    | some s => by_cases hs : s = "" <;> simp [truthyStr, hs]
  · refine ⟨_, rfl, ?_, ?_⟩
    · simp +decide [validateInvoicePayments, getInvoiceDetails, confirmedPaymentsOf,
        getInvoicePayments, duplicateRefsOf, transactionRefsOf, dupScan, truthyStr,
        List.indexOf, List.findIdx_cons, List.enum, List.enumFrom]
    · simp +decide [validateInvoicePayments, getInvoiceDetails, confirmedPaymentsOf,
        getInvoicePayments, duplicateRefsOf, transactionRefsOf, dupScan, truthyStr,
        List.indexOf, List.findIdx_cons, List.enum, List.enumFrom]
      rw [if_neg (by norm_num)]
      decide
  · refine ⟨_, rfl, ?_, ?_⟩
    · simp +decide [validateInvoicePayments, getInvoiceDetails, confirmedPaymentsOf,
        getInvoicePayments, duplicateRefsOf, transactionRefsOf, dupScan, truthyStr,
        List.indexOf, List.findIdx_cons, List.enum, List.enumFrom]
      norm_num
    · simp +decide [validateInvoicePayments, getInvoiceDetails, confirmedPaymentsOf,
        getInvoicePayments, duplicateRefsOf, transactionRefsOf, dupScan, truthyStr,
        List.indexOf, List.findIdx_cons, List.enum, List.enumFrom]
      norm_num
  · simp +decide [validateBankDetails, truthyStr]

/-- C3 (demonstration of the transactionality gap): when the invoice-row
write fails after the payment-row write succeeded, `confirmPayment` reports
the failure but leaves the store partially updated — the payment is already
confirmed while its invoice still shows paid_amount 0 and status pending —
because the source performs the two updates as separate store calls. -/
theorem confirmPayment_partial_commit :
    (confirmPaymentWith ⟨false, true⟩ exDB "P1" "u1").1 = .error .storeError ∧
    ((confirmPaymentWith ⟨false, true⟩ exDB "P1" "u1").2.payments.find?
        (fun q => q.id == "P1")).map Payment.status = some .confirmed ∧
    ((confirmPaymentWith ⟨false, true⟩ exDB "P1" "u1").2.invoices.find?
        (fun i => i.id == "I1")).map Invoice.paid_amount = some 0 ∧
    ((confirmPaymentWith ⟨false, true⟩ exDB "P1" "u1").2.invoices.find?
        (fun i => i.id == "I1")).map Invoice.status = some .pending := by
  refine ⟨?_, ?_, ?_, ?_⟩ <;>
    simp +decide [confirmPaymentWith, getInvoiceDetails, exDB, exInv, exP1, exP2,
      confirmedSum, updateById, confirmPaymentRow]

/-- The invoice-row update writes exactly the new paid amount. -/
theorem updateInvoiceRow_paid_amount (x : Rat) (y : InvoiceStatus) (z : Invoice) :
    (updateInvoiceRow x y z).paid_amount = x := rfl

/-- Serialized back-to-back confirmations: after confirming `pa` and then
`pb` (two distinct pending payments of the same invoice, payment ids unique),
the stored invoice's paid_amount is the prior confirmed sum plus both
amounts — the second confirmation reads the sum that already includes the
first, so no update is lost. -/
theorem confirmPayment_seq_paid (db : DB) (inv : Invoice) (pa pb : Payment) (ua ub : String)
    (hnd : (db.payments.map Payment.id).Nodup)
    (ha : db.payments.find? (fun q => q.id == pa.id) = some pa)
    (hb : db.payments.find? (fun q => q.id == pb.id) = some pb)
    (hne : pa.id ≠ pb.id)
    (hia : pa.invoice_id = inv.id) (hib : pb.invoice_id = inv.id)
    (hsa : pa.status ≠ PaymentStatus.confirmed) (hsb : pb.status ≠ PaymentStatus.confirmed)
    (hi : db.invoices.find? (fun i => i.id == inv.id) = some inv) :
    ∃ w : Invoice,
      ((confirmPayment (confirmPayment db pa.id ua).2 pb.id ub).2).invoices.find?
        (fun i => i.id == inv.id) = some w ∧
      w.paid_amount = confirmedSum inv.id db.payments + pa.amount + pb.amount := by
  have hiaib : pb.invoice_id = pa.invoice_id := hib.trans hia.symm
  have hi_a : db.invoices.find? (fun i => i.id == pa.invoice_id) = some inv := by
    rw [hia]; exact hi
  have h1 := confirmPayment_eq db pa.id ua pa inv ha hsa hi_a
  have hdb1 : (confirmPayment db pa.id ua).2 =
      ⟨updateById Invoice.id pa.invoice_id
          (updateInvoiceRow (confirmedSum pa.invoice_id db.payments + pa.amount)
            (calculateInvoiceStatus inv.total_amount
              (confirmedSum pa.invoice_id db.payments + pa.amount))) db.invoices,
       updateById Payment.id pa.id (confirmPaymentRow ua) db.payments⟩ := by rw [h1]
  have hb1 : (updateById Payment.id pa.id (confirmPaymentRow ua) db.payments).find?
      (fun q => q.id == pb.id) = some pb := by
    rw [find?_updateById_ne Payment.id pa.id pb.id (confirmPaymentRow ua) db.payments
      (fun x => rfl) hne.symm]
    exact hb
  have hi1 : (updateById Invoice.id pa.invoice_id
        (updateInvoiceRow (confirmedSum pa.invoice_id db.payments + pa.amount)
          (calculateInvoiceStatus inv.total_amount
            (confirmedSum pa.invoice_id db.payments + pa.amount)))
        db.invoices).find? (fun i => i.id == pb.invoice_id) =
      some (updateInvoiceRow (confirmedSum pa.invoice_id db.payments + pa.amount)
        (calculateInvoiceStatus inv.total_amount
          (confirmedSum pa.invoice_id db.payments + pa.amount)) inv) := by
    rw [hiaib]
    exact find?_updateById_self Invoice.id pa.invoice_id _ db.invoices inv (fun x => rfl) hi_a
  have h2 := confirmPayment_eq
    ⟨updateById Invoice.id pa.invoice_id
        (updateInvoiceRow (confirmedSum pa.invoice_id db.payments + pa.amount)
          (calculateInvoiceStatus inv.total_amount
            (confirmedSum pa.invoice_id db.payments + pa.amount))) db.invoices,
     updateById Payment.id pa.id (confirmPaymentRow ua) db.payments⟩
    pb.id ub pb
    (updateInvoiceRow (confirmedSum pa.invoice_id db.payments + pa.amount)
      (calculateInvoiceStatus inv.total_amount
        (confirmedSum pa.invoice_id db.payments + pa.amount)) inv)
    hb1 hsb hi1
  have hdb2 : (confirmPayment
      ⟨updateById Invoice.id pa.invoice_id
          (updateInvoiceRow (confirmedSum pa.invoice_id db.payments + pa.amount)
            (calculateInvoiceStatus inv.total_amount
              (confirmedSum pa.invoice_id db.payments + pa.amount))) db.invoices,
       updateById Payment.id pa.id (confirmPaymentRow ua) db.payments⟩ pb.id ub).2 =
      ⟨updateById Invoice.id pb.invoice_id
          (updateInvoiceRow
            (confirmedSum pb.invoice_id
                (updateById Payment.id pa.id (confirmPaymentRow ua) db.payments) + pb.amount)
            (calculateInvoiceStatus
              (updateInvoiceRow (confirmedSum pa.invoice_id db.payments + pa.amount)
                (calculateInvoiceStatus inv.total_amount
                  (confirmedSum pa.invoice_id db.payments + pa.amount)) inv).total_amount
              (confirmedSum pb.invoice_id
                  (updateById Payment.id pa.id (confirmPaymentRow ua) db.payments) + pb.amount)))
          (updateById Invoice.id pa.invoice_id
            (updateInvoiceRow (confirmedSum pa.invoice_id db.payments + pa.amount)
              (calculateInvoiceStatus inv.total_amount
                (confirmedSum pa.invoice_id db.payments + pa.amount))) db.invoices),
       updateById Payment.id pb.id (confirmPaymentRow ub)
          (updateById Payment.id pa.id (confirmPaymentRow ua) db.payments)⟩ := by rw [h2]
  have hsum := confirmedSum_updateById_confirm pb.invoice_id pa.id ua db.payments pa
    hnd ha hsa hiaib.symm
  rw [hdb1, hdb2]
  refine ⟨updateInvoiceRow
      (confirmedSum pb.invoice_id
          (updateById Payment.id pa.id (confirmPaymentRow ua) db.payments) + pb.amount)
      (calculateInvoiceStatus
        (updateInvoiceRow (confirmedSum pa.invoice_id db.payments + pa.amount)
          (calculateInvoiceStatus inv.total_amount
            (confirmedSum pa.invoice_id db.payments + pa.amount)) inv).total_amount
        (confirmedSum pb.invoice_id
            (updateById Payment.id pa.id (confirmPaymentRow ua) db.payments) + pb.amount))
      (updateInvoiceRow (confirmedSum pa.invoice_id db.payments + pa.amount)
        (calculateInvoiceStatus inv.total_amount
          (confirmedSum pa.invoice_id db.payments + pa.amount)) inv), ?_, ?_⟩
  · rw [← hib]
    exact find?_updateById_self Invoice.id pb.invoice_id _ _ _ (fun x => rfl) hi1
  · rw [updateInvoiceRow_paid_amount, hsum, hib]

/-- C1: two `confirmPayment` calls against different pending payments of the
same invoice, serialized per invoice, leave paid_amount = prior confirmed
sum + both amounts in either execution order (the only interleavings once
confirmations are serialized per invoice id). -/
theorem confirmPayment_serialized_no_lost_update (db : DB) (inv : Invoice)
    (pa pb : Payment) (ua ub : String)
    (hnd : (db.payments.map Payment.id).Nodup)
    (ha : db.payments.find? (fun q => q.id == pa.id) = some pa)
    (hb : db.payments.find? (fun q => q.id == pb.id) = some pb)
    (hne : pa.id ≠ pb.id)
    (hia : pa.invoice_id = inv.id) (hib : pb.invoice_id = inv.id)
    (hsa : pa.status = PaymentStatus.pending) (hsb : pb.status = PaymentStatus.pending)
    (hi : db.invoices.find? (fun i => i.id == inv.id) = some inv) :
    (∃ w : Invoice,
      ((confirmPayment (confirmPayment db pa.id ua).2 pb.id ub).2).invoices.find?
        (fun i => i.id == inv.id) = some w ∧
      w.paid_amount = confirmedSum inv.id db.payments + pa.amount + pb.amount) ∧
    (∃ w : Invoice,
      ((confirmPayment (confirmPayment db pb.id ub).2 pa.id ua).2).invoices.find?
        (fun i => i.id == inv.id) = some w ∧
      w.paid_amount = confirmedSum inv.id db.payments + pa.amount + pb.amount) := by
  constructor
  · exact confirmPayment_seq_paid db inv pa pb ua ub hnd ha hb hne hia hib
      (by simp [hsa]) (by simp [hsb]) hi
  · obtain ⟨w, hw, hp⟩ := confirmPayment_seq_paid db inv pb pa ub ua hnd hb ha
      (Ne.symm hne) hib hia (by simp [hsb]) (by simp [hsa]) hi
    exact ⟨w, hw, by rw [hp]; ring⟩

/-- Witness for C1 on `exDB`: both orders of confirming `exP1` (4000) and
`exP2` (6000) end with paid_amount 10000. -/
theorem confirmPayment_serialized_no_lost_update_witness :
    (∃ w : Invoice,
      ((confirmPayment (confirmPayment exDB "P1" "u1").2 "P2" "u2").2).invoices.find?
        (fun i => i.id == "I1") = some w ∧ w.paid_amount = 10000) ∧
    (∃ w : Invoice,
      ((confirmPayment (confirmPayment exDB "P2" "u2").2 "P1" "u1").2).invoices.find?
        (fun i => i.id == "I1") = some w ∧ w.paid_amount = 10000) := by
  obtain ⟨⟨w1, hw1, hp1⟩, ⟨w2, hw2, hp2⟩⟩ :=
    confirmPayment_serialized_no_lost_update exDB exInv exP1 exP2 "u1" "u2"
      (by decide) rfl rfl (by decide) rfl rfl rfl rfl rfl
  refine ⟨⟨w1, hw1, ?_⟩, ⟨w2, hw2, ?_⟩⟩
  · rw [hp1]
    simp [confirmedSum, exDB, exInv, exP1, exP2]
    norm_num
  · rw [hp2]
    simp [confirmedSum, exDB, exInv, exP1, exP2]
    norm_num

end RoyalFees
